import Mathlib

/-!
Shallow embedding of `src/enigma.py` (an Enigma rotor-cipher simulator).

Conventions of the embedding:
* Python `int` inputs of the substitution primitives are modelled as `Int`
  so that out-of-range and negative inputs can be discussed; values stored
  inside mappings are `Nat`s.
* A Python exception (`AssertionError`, `IndexError`, `KeyError`) is
  modelled as `none` of an `Option` result.
* Randomness is modelled by its outcome: a constructor that draws random
  data becomes a function of the drawn data, together with a predicate (or
  an outcome list) characterising exactly which data the Python random
  calls can produce.
-/

/-- Modelled from the spec: `consts.py` is not under `src/`. §3 fixes the
alphabet index space to `0..A-1` with one index per letter, and the source
maps indices to letters via `ord('a') + n` and parses lowercase letters, so
the alphabet is `a..z` and `ALPHABET_SIZE = 26`. -/
def ALPHABET_SIZE : Nat := 26

/-- Modelled from the spec: `consts.py` is not under `src/`.
`ALPHABET_UNIVERSE` is the alphabet index space `0..A-1` (the source iterates
it to build identity mappings and tests membership with `in`). -/
def ALPHABET_UNIVERSE : List Nat := List.range ALPHABET_SIZE

/-- Modelled from the spec: `consts.py` is not under `src/`. §3: "exactly N
Rotors (N fixed, e.g. 3–4)"; the §8 round-trip scenario uses 3 rotors. -/
def NUM_ROTORS : Nat := 3

/-- The outcomes of `randomNumber()`, i.e. of `randint(0, ALPHABET_SIZE)`.
Python's `randint(a, b)` includes *both* endpoints, so `ALPHABET_SIZE`
itself is a possible outcome. -/
def randomNumberOutcomes : List Nat := List.range (ALPHABET_SIZE + 1)

/-- Python list subscription `m[num]` for an arbitrary `int` index: indices
in `[0, len)` read directly, indices in `[-len, 0)` wrap from the end, and
anything else raises `IndexError` (modelled as `none`). -/
def pyListGet (m : List Nat) (num : Int) : Option Nat :=
  if 0 ≤ num ∧ num < (m.length : Int) then m[num.toNat]?
  else if -(m.length : Int) ≤ num ∧ num < 0 then m[m.length - (-num).toNat]?
  else none

/-- The Python domain check `num in ALPHABET_UNIVERSE` for an `int`. -/
def inUniverse (num : Int) : Bool :=
  decide (0 ≤ num) && decide (num < (ALPHABET_SIZE : Int))

/-- `RotorDisc.__mapping`: a sequence of alphabet indices.  The constructor
shuffles `ALPHABET_UNIVERSE`, so any permutation of it is a possible initial
mapping. -/
structure RotorDisc where
  mapping : List Nat
  deriving DecidableEq, Repr

/-- A `RotorDisc` the constructor can produce: any shuffle of the universe. -/
def RotorDisc.Constructible (d : RotorDisc) : Prop :=
  d.mapping.Perm ALPHABET_UNIVERSE

/-- `RotorDisc.get(num)`: `assert(num in ALPHABET_UNIVERSE)`, then
`self.__mapping[num]`. -/
def RotorDisc.get (d : RotorDisc) (num : Int) : Option Nat :=
  if inUniverse num then pyListGet d.mapping num else none

/-- Python `deque.rotate(1)`: a cyclic *right* rotation by one position
(the last element moves to the front).  Expressed with `List.rotate`, a
left rotation, as a left rotation by `length - 1`. -/
def dequeRotateOne (l : List Nat) : List Nat :=
  l.rotate (l.length - 1)

/-- `RotorDisc.rotate()`: `self.__mapping.rotate(1)`. -/
def RotorDisc.rotate (d : RotorDisc) : RotorDisc :=
  ⟨dequeRotateOne d.mapping⟩

/-- `AlphabetRing`: holds the notch position, drawn by `randomNumber()` at
construction. -/
structure AlphabetRing where
  notch : Nat
  deriving DecidableEq, Repr

/-- An `AlphabetRing` the constructor can produce: the notch is an outcome
of `randomNumber()`, i.e. any value in `[0, ALPHABET_SIZE]` inclusive. -/
def AlphabetRing.Constructible (r : AlphabetRing) : Prop :=
  r.notch ∈ randomNumberOutcomes

instance (r : AlphabetRing) : Decidable r.Constructible := by
  unfold AlphabetRing.Constructible; infer_instance

/-- `Reflector.__mapping`: the constructor shuffles `ALPHABET_UNIVERSE` and
performs no further adjustment. -/
structure Reflector where
  mapping : List Nat
  deriving DecidableEq, Repr

/-- A `Reflector` the constructor can produce: any shuffle of the universe
(no involution property is established by the code). -/
def Reflector.Constructible (rf : Reflector) : Prop :=
  rf.mapping.Perm ALPHABET_UNIVERSE

/-- `Reflector.get(num)`: `assert(num in ALPHABET_UNIVERSE)`, then
`self.__mapping[num]`. -/
def Reflector.get (rf : Reflector) (num : Int) : Option Nat :=
  if inUniverse num then pyListGet rf.mapping num else none

/-- `Plugboard`: the involutive mapping plus the pair list parsed from the
`__str` settings string.  The source stores the pairs as two-letter tokens
built with `numberToChar` and parses them back with `charToNumber`; those
two helpers are mutually inverse on `0..25`, so the embedding keeps the
numeric pair list directly. -/
structure Plugboard where
  mapping : List Nat
  pairs : List (Nat × Nat)
  deriving DecidableEq, Repr

/-- `Plugboard.get(num)`: `return self.__mapping[num]` — note: *no* domain
assertion, plain Python subscription. -/
def Plugboard.get (pb : Plugboard) (num : Int) : Option Nat :=
  pyListGet pb.mapping num

/-- `Rotor`: a disc, an alphabet ring and the ring offset (`Ringstellung`). -/
structure Rotor where
  disc : RotorDisc
  ring : AlphabetRing
  ringstellung : Nat
  deriving DecidableEq, Repr

instance : Inhabited Rotor := ⟨⟨⟨[]⟩, ⟨0⟩, 0⟩⟩

/-- `Rotor.rotate()`: delegates to the disc. -/
def Rotor.rotate (r : Rotor) : Rotor :=
  { r with disc := r.disc.rotate }

/-- `Rotor.get(num)`: `num = (num + ringstellung) % ALPHABET_SIZE`, then
`disc.get(num)`.  Python `%` with a positive modulus agrees with `Int.emod`. -/
def Rotor.get (r : Rotor) (num : Int) : Option Nat :=
  r.disc.get ((num + (r.ringstellung : Int)) % (ALPHABET_SIZE : Int))

/-- `PawlAndRatchetMechanism`: the per-rotor rotation counters
(`_rotation_count`, one per rotor except the last). The rotor list itself is
shared with the assembly and is threaded explicitly below. -/
structure PawlAndRatchetMechanism where
  rotation_count : List Nat
  deriving DecidableEq, Repr

/-- Replace the element at index `i` by `f` of it (no-op out of range);
used for `self._rotors[index].rotate()`. -/
def listModify (f : Rotor → Rotor) (l : List Rotor) (i : Nat) : List Rotor :=
  match l[i]? with
  | none => l
  | some r => l.set i (f r)

/-- Phase 1 of `PawlAndRatchetMechanism.rotate`: the `pending_rotations`
flags, computed from the counters observed before any advance.  Index 0 is
always flagged; index `idx ≥ 1` is flagged iff
`rotation_count[idx-1] == rotors[idx-1].alphabet_ring.notch`. -/
def pendingRotations (rotors : List Rotor) (counts : List Nat) : List Bool :=
  (List.range rotors.length).map fun idx =>
    idx == 0 || (counts.getD (idx - 1) 0 == (rotors.getD (idx - 1) default).ring.notch)

/-- `__rotate_rotor(index)`: reads `rotation_count[index]` — an `IndexError`
(modelled `none`) when `index ≥ len(rotation_count)`, which happens exactly
for the last rotor since there are only `n - 1` counters — then stores the
incremented counter mod `ALPHABET_SIZE` and rotates `rotors[index]`. -/
def rotateRotorStep (rotors : List Rotor) (counts : List Nat) (index : Nat) :
    Option (List Rotor × List Nat) :=
  match counts[index]? with
  | none => none
  | some c =>
    some (listModify Rotor.rotate rotors index, counts.set index ((c + 1) % ALPHABET_SIZE))

/-- Phase 2 of `PawlAndRatchetMechanism.rotate`: perform the pending
rotations in index order; the first failing `__rotate_rotor` aborts the
keystroke (Python raises out of the loop). -/
def prmRotate (rotors : List Rotor) (counts : List Nat) :
    Option (List Rotor × List Nat) :=
  let pending := pendingRotations rotors counts
  (List.range rotors.length).foldl
    (fun acc idx =>
      acc.bind fun rc =>
        if pending.getD idx false then rotateRotorStep rc.1 rc.2 idx else some rc)
    (some (rotors, counts))

/-- One element of `obj_list` in `RotorAssembly.get`. -/
inductive Stage where
  | rotor (r : Rotor)
  | refl (rf : Reflector)
  deriving DecidableEq, Repr

/-- Stage lookup: a rotor stage uses `Rotor.get`, the reflector stage uses
`Reflector.get`. -/
def Stage.get : Stage → Int → Option Nat
  | .rotor r, num => r.get num
  | .refl rf, num => rf.get num

/-- `obj_list = self._rotors + [self._reflector] + self._rotors[::-1]`. -/
def objList (rotors : List Rotor) (rf : Reflector) : List Stage :=
  rotors.map Stage.rotor ++ [Stage.refl rf] ++ rotors.reverse.map Stage.rotor

/-- The recursive `apply(value, idx)` of `RotorAssembly.get`: feed the value
through the stages in order; a failing stage lookup propagates. -/
def applyStages : List Stage → Int → Option Int
  | [], value => some value
  | s :: rest, value => (s.get value).bind fun v => applyStages rest (v : Int)

/-- `RotorAssembly`: the rotors, the reflector and the pawl-and-ratchet
mechanism (which in the source shares the rotor list by reference). -/
structure RotorAssembly where
  rotors : List Rotor
  reflector : Reflector
  prm : PawlAndRatchetMechanism
  deriving DecidableEq, Repr

/-- `RotorAssembly.get(num)`: compute the chain value from the *current*
(pre-step) rotor positions, then invoke `PawlAndRatchetMechanism.rotate`
exactly once (its `IndexError` propagates), then return the value. -/
def RotorAssembly.get (asm : RotorAssembly) (num : Int) :
    Option (Int × RotorAssembly) :=
  match applyStages (objList asm.rotors asm.reflector) num with
  | none => none
  | some value =>
    match prmRotate asm.rotors asm.prm.rotation_count with
    | none => none
    | some (rotors2, counts2) =>
      some (value, ⟨rotors2, asm.reflector, ⟨counts2⟩⟩)

/-- `Enigma`: one rotor assembly and one plugboard. -/
structure Enigma where
  rotor_asm : RotorAssembly
  plugboard : Plugboard
  deriving DecidableEq, Repr

/-- `Enigma.get(num)`: plugboard, rotor assembly (which also steps),
plugboard.  The returned pair is the Python return value (`none` when an
exception is raised anywhere in the call) and the machine state after the
call.  When the exception is raised before any mutation (in particular when
the *first* plugboard lookup raises) the state is the unchanged input state;
a failure inside the assembly also returns the input state, which no
property below inspects. -/
def Enigma.get (e : Enigma) (num : Int) : Option Nat × Enigma :=
  match e.plugboard.get num with
  | none => (none, e)
  | some v1 =>
    match e.rotor_asm.get (v1 : Int) with
    | none => (none, e)
    | some (v2, asm2) =>
      match e.plugboard.get v2 with
      | none => (none, { e with rotor_asm := asm2 })
      | some v3 => (some v3, { e with rotor_asm := asm2 })

/-! ## Configuration save / load

The on-disk text encoding (ConfigParser sections, `str`/`int`, JSON arrays)
is out of scope per spec §1; a parsed configuration file is modelled as the
data it carries.  `Rotor.saveCfg` writes `Ringstellung`, the ring's `notch`
and the disc's `config`; `Rotor.loadCfg` replaces all three. -/

/-- The `Rotor_<k>` section of the configuration file. -/
structure RotorSection where
  Ringstellung : Nat
  notch : Nat
  config : List Nat
  deriving DecidableEq, Repr

/-- A parsed configuration file: the `Reflector` section (optional, since
`RotorAssembly.loadCfg` checks for its presence), the `Rotor_1..Rotor_N`
sections in order, and the `Plugboard` section. -/
structure Cfg where
  reflectorSection : Option (List Nat)
  rotorSections : List RotorSection
  plugboardSection : Option (List (Nat × Nat))
  deriving DecidableEq, Repr

/-- `Rotor.saveCfg`: writes `Ringstellung`, `notch` and the disc mapping. -/
def Rotor.saveCfg (r : Rotor) : RotorSection :=
  ⟨r.ringstellung, r.ring.notch, r.disc.mapping⟩

/-- `Rotor.loadCfg`: replaces ringstellung, disc mapping and notch with the
section's contents (the previous rotor state is fully overwritten). -/
def Rotor.loadCfg (_r : Rotor) (s : RotorSection) : Rotor :=
  ⟨⟨s.config⟩, ⟨s.notch⟩, s.Ringstellung⟩

/-- `RotorAssembly.loadCfg` iterates `enumerate(self._rotors)` and reads
section `Rotor_<idx+1>` for each; a missing section is a `KeyError`
(modelled `none`); surplus sections are ignored. -/
def loadRotors : List Rotor → List RotorSection → Option (List Rotor)
  | [], _ => some []
  | _ :: _, [] => none
  | r :: rs, s :: ss => (loadRotors rs ss).map fun rest => r.loadCfg s :: rest

/-- `RotorAssembly.loadCfg`: restores the reflector only when the
`Reflector` section is present, then restores every rotor.  The stepping
counters are not touched. -/
def RotorAssembly.loadCfg (asm : RotorAssembly) (cfg : Cfg) :
    Option RotorAssembly :=
  let rf : Reflector :=
    match cfg.reflectorSection with
    | some m => ⟨m⟩
    | none => asm.reflector
  (loadRotors asm.rotors cfg.rotorSections).map fun rs => ⟨rs, rf, asm.prm⟩

/-- `Enigma.saveCfg`: `rotor_asm.saveCfg` (reflector section plus one
section per rotor) followed by `plugboard.saveCfg` (the settings string). -/
def Enigma.saveCfg (e : Enigma) : Cfg :=
  { reflectorSection := some e.rotor_asm.reflector.mapping
    rotorSections := e.rotor_asm.rotors.map Rotor.saveCfg
    plugboardSection := some e.plugboard.pairs }

/-- `Enigma.loadCfg`: when the config file is absent (`none`) the body is
skipped entirely; otherwise only `rotor_asm.loadCfg` runs — the plugboard is
never loaded. -/
def Enigma.loadCfg (e : Enigma) : Option Cfg → Option Enigma
  | none => some e
  | some cfg => (e.rotor_asm.loadCfg cfg).map fun asm2 => { e with rotor_asm := asm2 }

/-! ## Plugboard construction

`getRandomPlugboardString` draws `numPairs = randint(1, 10)`, then
repeatedly shuffles the remaining pool of letters and pops the two front
letters to form a pair.  `Plugboard.__setup` then replays the pairs with
`__connect`, which asserts the two keys differ and lie in the universe and
writes the swap into the mapping (which starts as the identity). -/

/-- One `__connect(keyA, keyB)` call on the mapping: assert the keys differ
and are in the universe, then write the swap. -/
def connect (m : List Nat) (p : Nat × Nat) : Option (List Nat) :=
  if p.1 ≠ p.2 ∧ p.1 ∈ ALPHABET_UNIVERSE ∧ p.2 ∈ ALPHABET_UNIVERSE then
    some ((m.set p.1 p.2).set p.2 p.1)
  else none

/-- `Plugboard.__setup`: fold `__connect` over the parsed pairs, starting
from the identity mapping. -/
def setupPairs : List Nat → List (Nat × Nat) → Option (List Nat)
  | m, [] => some m
  | m, p :: ps => (connect m p).bind fun m2 => setupPairs m2 ps

/-- The letters occurring in a pair list, in order. -/
def pairLetters : List (Nat × Nat) → List Nat
  | [] => []
  | p :: ps => p.1 :: p.2 :: pairLetters ps

/-- The pair lists `getRandomPlugboardString`'s loop can produce from a
given pool in `k` iterations: each iteration shuffles the pool (any
permutation) and pops the two front letters. -/
inductive GenPairs : List Nat → Nat → List (Nat × Nat) → Prop
  | nil (pool : List Nat) : GenPairs pool 0 []
  | cons (pool pool2 : List Nat) (a b : Nat) (k : Nat) (ps : List (Nat × Nat)) :
      (a :: b :: pool2).Perm pool →
      GenPairs pool2 k ps →
      GenPairs pool (k + 1) ((a, b) :: ps)

/-- A `Plugboard` that `Plugboard.__init__` can produce: the pair list is a
possible outcome of `getRandomPlugboardString` for some `numPairs` drawn
from `randint(1, 10)`, and the mapping is the result of `__setup` on it. -/
def Plugboard.Constructible (pb : Plugboard) : Prop :=
  ∃ k, 1 ≤ k ∧ k ≤ 10 ∧ GenPairs ALPHABET_UNIVERSE k pb.pairs ∧
    setupPairs ALPHABET_UNIVERSE pb.pairs = some pb.mapping

/-! ## Constructor models

Python evaluates a `def`'s default-parameter expressions once, when the
`def` itself is executed — for `Rotor.__init__(self, ringstellung =
randomNumber())` that is when `class Rotor` is defined, i.e. once per
process at module import.  The single value drawn there is modelled as the
explicit parameter `processDefault`; every `Rotor()` call that omits the
argument receives it. -/

/-- `Rotor()` with the `ringstellung` argument omitted: a fresh disc
shuffle and a fresh ring draw, but the process-wide default ring offset. -/
def mkRotorNoArg (processDefault : Nat) (discMapping : List Nat) (notch : Nat) :
    Rotor :=
  ⟨⟨discMapping⟩, ⟨notch⟩, processDefault⟩

/-- `RotorAssembly.__init__`: `[Rotor() for _ in range(NUM_ROTORS)]` (each
rotor gets its own disc shuffle `discs i` and ring draw `notches i`), a
fresh reflector, and a pawl-and-ratchet mechanism with `NUM_ROTORS - 1`
zero counters. -/
def mkRotorAssembly (processDefault : Nat) (discs : Nat → List Nat)
    (notches : Nat → Nat) (reflMapping : List Nat) : RotorAssembly :=
  { rotors := (List.range NUM_ROTORS).map fun i =>
      mkRotorNoArg processDefault (discs i) (notches i)
    reflector := ⟨reflMapping⟩
    prm := ⟨List.replicate (NUM_ROTORS - 1) 0⟩ }

/-! ## Spec-side signal path

These definitions follow the *spec's words* (§4.2, §4.5, §4.6) rather than
the source's recursion over `obj_list`; they are compared with the source
embedding in the refinement theorems below.  On well-formed machines every
lookup is total, so they are written with `getD`. -/

/-- Spec §4.2: `Rotor.get(i)` computes `j = (i + ringOffset) mod A` and
returns `disc.get(j)`. -/
def rotorStageSpec (r : Rotor) (i : Nat) : Nat :=
  r.disc.mapping.getD ((i + r.ringstellung) % ALPHABET_SIZE) 0

/-- Spec-side reflector lookup. -/
def reflectorSpec (rf : Reflector) (i : Nat) : Nat :=
  rf.mapping.getD i 0

/-- Spec-side plugboard lookup. -/
def plugboardSpec (pb : Plugboard) (i : Nat) : Nat :=
  pb.mapping.getD i 0

/-- Spec §4.5: forward pass through rotors `0..N-1`, the reflector, then
the backward pass through rotors `N-1..0`. -/
def chainSpec (rotors : List Rotor) (rf : Reflector) (i : Nat) : Nat :=
  rotors.reverse.foldl (fun x r => rotorStageSpec r x)
    (reflectorSpec rf (rotors.foldl (fun x r => rotorStageSpec r x) i))

/-- Spec §4.6: plugboard, rotor chain, plugboard. -/
def engineSpec (e : Enigma) (i : Nat) : Nat :=
  plugboardSpec e.plugboard
    (chainSpec e.rotor_asm.rotors e.rotor_asm.reflector
      (plugboardSpec e.plugboard i))

/-! ## Well-formedness -/

/-- A mapping list over the alphabet: full length with in-range entries
(every mapping the constructors or a valid restore produce satisfies it). -/
def wfMapping (m : List Nat) : Prop :=
  m.length = ALPHABET_SIZE ∧ ∀ x ∈ m, x < ALPHABET_SIZE

instance (m : List Nat) : Decidable (wfMapping m) := by
  unfold wfMapping; infer_instance

/-- Well-formed rotor: its disc mapping is well-formed. -/
def Rotor.Wf (r : Rotor) : Prop :=
  wfMapping r.disc.mapping

instance (r : Rotor) : Decidable r.Wf := by
  unfold Rotor.Wf; infer_instance

/-- Well-formed assembly: all disc mappings and the reflector mapping. -/
def RotorAssembly.Wf (asm : RotorAssembly) : Prop :=
  (∀ r ∈ asm.rotors, r.Wf) ∧ wfMapping asm.reflector.mapping

instance (asm : RotorAssembly) : Decidable asm.Wf := by
  unfold RotorAssembly.Wf; infer_instance

/-- Well-formed engine: assembly plus plugboard mapping. -/
def Enigma.Wf (e : Enigma) : Prop :=
  e.rotor_asm.Wf ∧ wfMapping e.plugboard.mapping

instance (e : Enigma) : Decidable e.Wf := by
  unfold Enigma.Wf; infer_instance

/-! ## Concrete machines

Every component below is a possible outcome of the source's random
construction: discs and reflectors can be any shuffle of the universe,
notches any `randint(0, ALPHABET_SIZE)` outcome, ring offsets any such
outcome (or an explicit argument), and the plugboard any generated pair
list. -/

/-- The plugboard mapping produced by the single pair `(0, 1)`. -/
def pb0mapping : List Nat := (ALPHABET_UNIVERSE.set 0 1).set 1 0

/-- A plugboard with the single pair `(0, 1)`. -/
def pb0 : Plugboard := ⟨pb0mapping, [(0, 1)]⟩

/-- The identity disc (a possible shuffle outcome). -/
def idDisc : RotorDisc := ⟨ALPHABET_UNIVERSE⟩

/-- Identity disc, notch 5, ring offset 0. -/
def r5 : Rotor := ⟨idDisc, ⟨5⟩, 0⟩

/-- The cyclic-shift reflector `i ↦ (i + 1) % 26` (a possible shuffle
outcome, and not an involution). -/
def refl1 : Reflector := ⟨ALPHABET_UNIVERSE.rotate 1⟩

/-- The identity reflector (a possible shuffle outcome, with fixed
points). -/
def reflId : Reflector := ⟨ALPHABET_UNIVERSE⟩

/-- A fresh three-rotor assembly with identity discs, notches 5, zero ring
offsets and the shift reflector. -/
def asm0 : RotorAssembly := ⟨[r5, r5, r5], refl1, ⟨[0, 0]⟩⟩

/-- A fresh engine over `asm0` and `pb0`. -/
def e0 : Enigma := ⟨asm0, pb0⟩

/-- Identity disc, notch 1, ring offset 0. -/
def rA : Rotor := ⟨idDisc, ⟨1⟩, 0⟩

/-- Identity disc, notch 0, ring offset 0: with a zero notch the *next*
rotor is flagged on the very first keystroke. -/
def rB : Rotor := ⟨idDisc, ⟨0⟩, 0⟩

/-- Identity disc, notch 7, ring offset 0. -/
def rC : Rotor := ⟨idDisc, ⟨7⟩, 0⟩

/-- A fresh assembly whose middle rotor's notch is 0, so the first
keystroke flags the last rotor. -/
def crashAsm : RotorAssembly := ⟨[rA, rB, rC], refl1, ⟨[0, 0]⟩⟩

/-- A fresh engine over `crashAsm` and `pb0`. -/
def eCrash : Enigma := ⟨crashAsm, pb0⟩

/-- The pair list `[(0, 1)]` is a possible outcome of the plugboard pair
generation: shuffle the full pool so that 0 and 1 are in front, pop both. -/
theorem genPairs01 : GenPairs ALPHABET_UNIVERSE 1 [(0, 1)] := by
  refine GenPairs.cons _ (ALPHABET_UNIVERSE.drop 2) 0 1 0 [] ?_ (GenPairs.nil _)
  have h : (0 : Nat) :: 1 :: ALPHABET_UNIVERSE.drop 2 = ALPHABET_UNIVERSE := by decide
  rw [h]

/-- `pb0` is a plugboard the constructor can produce. -/
theorem pb0_constructible : pb0.Constructible :=
  ⟨1, Nat.le_refl 1, by norm_num, genPairs01, by decide⟩

/-- `refl1` is a reflector the constructor can produce. -/
theorem refl1_constructible : refl1.Constructible :=
  show (ALPHABET_UNIVERSE.rotate 1).Perm ALPHABET_UNIVERSE from
    List.rotate_perm _ _

/-- `reflId` is a reflector the constructor can produce. -/
theorem reflId_constructible : reflId.Constructible :=
  show ALPHABET_UNIVERSE.Perm ALPHABET_UNIVERSE from List.Perm.refl _

/-- `idDisc` is a disc the constructor can produce. -/
theorem idDisc_constructible : idDisc.Constructible :=
  show ALPHABET_UNIVERSE.Perm ALPHABET_UNIVERSE from List.Perm.refl _

/-- C1: round-trip reversibility fails on the code.  `e0` is a machine every
part of which the constructors can produce, and both encode calls are made
at the identical (fresh) rotor position; yet input 2 encodes to 3 while 3
encodes to 4, not back to 2.  The backward pass reuses each rotor's forward
`get` instead of its inverse and the reflector is an arbitrary shuffle, so
the composite substitution is not an involution. -/
theorem c1_roundtrip_fails_eval :
    Enigma.Wf e0 ∧ refl1.Constructible ∧ idDisc.Constructible ∧
    pb0.Constructible ∧
    (e0.get 2).fst = some 3 ∧ (e0.get 3).fst = some 4 ∧ (4 : Nat) ≠ 2 :=
  ⟨by decide, refl1_constructible, idDisc_constructible, pb0_constructible,
   by decide, by decide, by decide⟩

/-- C2: the `Reflector` constructor merely shuffles the universe, so the
mapping need not be an involution and may have fixed points.  The cyclic
shift `refl1` and the identity `reflId` are both possible shuffle outcomes;
`refl1` maps 0 to 1 and 1 to 2 (so `get(get(0)) = 2 ≠ 0`), and `reflId`
maps 0 to itself (a fixed point). -/
theorem c2_reflector_not_involution_eval :
    refl1.Constructible ∧ reflId.Constructible ∧
    refl1.get 0 = some 1 ∧ refl1.get 1 = some 2 ∧ some 2 ≠ some (0 : Nat) ∧
    reflId.get 0 = some 0 :=
  ⟨refl1_constructible, reflId_constructible, by decide, by decide, by decide,
   by decide⟩

/-- C4: the stepping transition crashes when the last rotor is flagged.  On
the fresh assembly `crashAsm` (the middle rotor's notch is 0, a possible
`randomNumber()` outcome, and the counters start at `[0, 0]`) the first
keystroke flags rotors 0 and 2; performing rotor 2's advance reads
`rotation_count[2]` of a two-element list — an `IndexError` — so the
keystroke aborts and rotor 2's disc never rotates, against the claim that
every flagged rotor's disc rotates once. -/
theorem c4_stepping_crash_eval :
    rB.ring.Constructible ∧
    pendingRotations [rA, rB, rC] [0, 0] = [true, false, true] ∧
    rotateRotorStep [rA, rB, rC] [0, 0] 2 = none ∧
    prmRotate [rA, rB, rC] [0, 0] = none ∧
    crashAsm.get 2 = none := by
  refine ⟨by decide, by decide, by decide, by decide, by decide⟩

/-- C6: one `Disc.rotate()` is a cyclic *right* shift (Python
`deque.rotate(1)` moves the last element to the front), not the claimed
left shift: on the identity disc, after one rotation `get(0)` returns 25
(the element previously at the last index), not the element previously at
index `(0+1) % 26` (which is 1); and the element previously at index 0 ends
at index 1, not at the end of the sequence (the last element is 24). -/
theorem c6_counterexample :
    idDisc.Constructible ∧
    idDisc.rotate.get 0 = some 25 ∧
    idDisc.mapping.getD ((0 + 1) % ALPHABET_SIZE) 0 = 1 ∧ (25 : Nat) ≠ 1 ∧
    idDisc.rotate.mapping.getLast? = some 24 ∧
    idDisc.mapping.getD 0 0 = 0 ∧ (24 : Nat) ≠ 0 :=
  ⟨idDisc_constructible, by decide, by decide, by decide, by decide,
   by decide, by decide⟩

/-- C7: `randomNumber()` is `randint(0, ALPHABET_SIZE)`, and Python's
`randint` includes *both* endpoints, so `ALPHABET_SIZE` itself is a
possible notch and a possible default ring offset — outside the claimed
`[0, A)`. -/
theorem c7_random_range_eval :
    ALPHABET_SIZE ∈ randomNumberOutcomes ∧
    AlphabetRing.Constructible ⟨ALPHABET_SIZE⟩ ∧
    ¬ ALPHABET_SIZE < ALPHABET_SIZE ∧
    (mkRotorNoArg ALPHABET_SIZE ALPHABET_UNIVERSE 0).ringstellung =
      ALPHABET_SIZE := by
  refine ⟨by decide, by decide, by decide, rfl⟩

/-- C6 amended: one `Disc.rotate()` is a cyclic *right* shift by one
position: for every index `i` in the alphabet range, `get(i)` afterwards
returns the element previously at index `(i + A - 1) mod A`, and the
element previously at the last index is now at index 0. -/
theorem c6_amended (d : RotorDisc) (h : d.mapping.length = ALPHABET_SIZE)
    (i : Nat) (hi : i < ALPHABET_SIZE) :
    d.rotate.mapping[i]? =
      d.mapping[(i + (ALPHABET_SIZE - 1)) % ALPHABET_SIZE]? ∧
    d.rotate.mapping.head? = d.mapping.getLast? := by
  have hlen : i < d.mapping.length := by rw [h]; exact hi
  have h0 : 0 < d.mapping.length := by omega
  constructor
  · show (dequeRotateOne d.mapping)[i]? = _
    unfold dequeRotateOne
    rw [List.getElem?_rotate hlen, h]
  · show (dequeRotateOne d.mapping).head? = _
    unfold dequeRotateOne
    rw [List.head?_eq_getElem?, List.getLast?_eq_getElem?,
      List.getElem?_rotate h0, Nat.zero_add,
      Nat.mod_eq_of_lt (Nat.sub_lt h0 Nat.one_pos)]

/-- C6 amended witness at the identity disc and index 0. -/
theorem c6_amended_witness :
    idDisc.rotate.mapping[0]? =
      idDisc.mapping[(0 + (ALPHABET_SIZE - 1)) % ALPHABET_SIZE]? ∧
    idDisc.rotate.mapping.head? = idDisc.mapping.getLast? :=
  c6_amended idDisc (by decide) 0 (by decide)

/-- `inUniverse` decides membership of the input in `[0, ALPHABET_SIZE)`. -/
theorem inUniverse_iff (num : Int) :
    inUniverse num = true ↔ (0 ≤ num ∧ num < (ALPHABET_SIZE : Int)) := by
  unfold inUniverse; simp

/-- Python subscription succeeds exactly on `[-len, len)` (here `len = A`). -/
theorem pyListGet_isSome (m : List Nat) (num : Int)
    (hm : m.length = ALPHABET_SIZE) :
    (pyListGet m num).isSome ↔
      (-(ALPHABET_SIZE : Int) ≤ num ∧ num < (ALPHABET_SIZE : Int)) := by
  have hA : ALPHABET_SIZE = 26 := rfl
  unfold pyListGet
  split_ifs with h1 h2
  · rw [List.getElem?_eq_getElem (show num.toNat < m.length by omega)]
    simp only [Option.isSome_some, true_iff]
    omega
  · rw [List.getElem?_eq_getElem (show m.length - (-num).toNat < m.length by omega)]
    simp only [Option.isSome_some, true_iff]
    omega
  · simp only [Option.isSome_none, Bool.false_eq_true, false_iff]
    omega

/-- Python subscription at an in-range `Nat` index reads the element. -/
theorem pyListGet_ofNat (m : List Nat) (hm : m.length = ALPHABET_SIZE)
    (i : Nat) (hi : i < ALPHABET_SIZE) :
    pyListGet m (i : Int) = some (m.getD i 0) := by
  have hi' : i < m.length := by omega
  unfold pyListGet
  rw [if_pos (show (0 : Int) ≤ (i : Int) ∧ (i : Int) < (m.length : Int) by omega)]
  rw [Int.toNat_ofNat, List.getElem?_eq_getElem hi']
  simp [List.getD_eq_getElem?_getD, List.getElem?_eq_getElem hi']

/-- `Disc.get` succeeds exactly on `[0, A)` (its domain assertion rejects
everything else, negative inputs included). -/
theorem discGet_isSome (d : RotorDisc) (num : Int)
    (hm : d.mapping.length = ALPHABET_SIZE) :
    (d.get num).isSome ↔ (0 ≤ num ∧ num < (ALPHABET_SIZE : Int)) := by
  have hA : ALPHABET_SIZE = 26 := rfl
  unfold RotorDisc.get
  by_cases h : 0 ≤ num ∧ num < (ALPHABET_SIZE : Int)
  · rw [if_pos (inUniverse_iff num |>.mpr h), pyListGet_isSome _ _ hm]
    constructor <;> (intro h2; exact ⟨by omega, by omega⟩)
  · rw [if_neg fun hb => h (inUniverse_iff num |>.mp hb)]
    simp [h]

/-- `Reflector.get` succeeds exactly on `[0, A)`. -/
theorem reflectorGet_isSome (rf : Reflector) (num : Int)
    (hm : rf.mapping.length = ALPHABET_SIZE) :
    (rf.get num).isSome ↔ (0 ≤ num ∧ num < (ALPHABET_SIZE : Int)) :=
  discGet_isSome ⟨rf.mapping⟩ num hm

/-- `Disc.get` at an in-range `Nat` index reads the mapping element. -/
theorem discGet_inRange (d : RotorDisc)
    (hm : d.mapping.length = ALPHABET_SIZE) (i : Nat) (hi : i < ALPHABET_SIZE) :
    d.get (i : Int) = some (d.mapping.getD i 0) := by
  unfold RotorDisc.get
  rw [if_pos (inUniverse_iff _ |>.mpr ⟨Int.natCast_nonneg i, by exact_mod_cast hi⟩)]
  exact pyListGet_ofNat d.mapping hm i hi

/-- `Reflector.get` at an in-range `Nat` index reads the mapping element. -/
theorem reflectorGet_inRange (rf : Reflector)
    (hm : rf.mapping.length = ALPHABET_SIZE) (i : Nat) (hi : i < ALPHABET_SIZE) :
    rf.get (i : Int) = some (reflectorSpec rf i) :=
  discGet_inRange ⟨rf.mapping⟩ hm i hi

/-- `Plugboard.get` at an in-range `Nat` index reads the mapping element. -/
theorem plugboardGet_inRange (pb : Plugboard)
    (hm : pb.mapping.length = ALPHABET_SIZE) (i : Nat) (hi : i < ALPHABET_SIZE) :
    pb.get (i : Int) = some (plugboardSpec pb i) :=
  pyListGet_ofNat pb.mapping hm i hi

/-- `Rotor.get` applied to an alphabet value equals the spec's stage formula
`disc.get((i + ringOffset) mod A)`. -/
theorem rotorGet_spec (r : Rotor) (hm : r.disc.mapping.length = ALPHABET_SIZE)
    (v : Nat) : r.get (v : Int) = some (rotorStageSpec r v) := by
  unfold Rotor.get
  have hcast : ((v : Int) + (r.ringstellung : Int)) % (ALPHABET_SIZE : Int)
      = (((v + r.ringstellung) % ALPHABET_SIZE : Nat) : Int) := by
    rw [Int.ofNat_emod, Nat.cast_add]
  rw [hcast]
  exact discGet_inRange r.disc hm _ (Nat.mod_lt _ (by decide))

/-- `Rotor.get` never fails, on arbitrary `Int` inputs: the input is reduced
mod `A` *before* the disc lookup, so the disc's domain assertion always
passes. -/
theorem rotorGet_total (r : Rotor) (num : Int)
    (hm : r.disc.mapping.length = ALPHABET_SIZE) : (r.get num).isSome := by
  unfold Rotor.get
  rw [discGet_isSome r.disc _ hm]
  exact ⟨Int.emod_nonneg _ (by decide), Int.emod_lt_of_pos _ (by decide)⟩

/-- An engine call whose input is outside `[-A, A)` fails in the first
plugboard subscription, before anything can mutate. -/
theorem Enigma.get_invalid (e : Enigma) (num : Int)
    (hm : e.plugboard.mapping.length = ALPHABET_SIZE)
    (h : num < -(ALPHABET_SIZE : Int) ∨ (ALPHABET_SIZE : Int) ≤ num) :
    e.get num = (none, e) := by
  have hA : ALPHABET_SIZE = 26 := rfl
  have hnone : e.plugboard.get num = none := by
    rcases hopt : e.plugboard.get num with _ | v
    · rfl
    · have h2 := (pyListGet_isSome e.plugboard.mapping num hm).mp
        (by rw [show pyListGet e.plugboard.mapping num = some v from hopt]; rfl)
      omega
  unfold Enigma.get
  rw [hnone]

/-- C3 counterexample: the claim fails at input `-1`.  `-1` is outside
`[0, A)`, yet `Plugboard.get(-1)` succeeds (Python negative indexing wraps:
it returns the last mapping element), `Rotor.get(100)` succeeds (the input
is reduced mod `A`), and `Enigma.get(-1)` succeeds, returns a value, and
*does* mutate state: the first stepping counter changes from 0 to 1. -/
theorem c3_counterexample :
    ¬ (0 ≤ (-1 : Int) ∧ (-1 : Int) < (ALPHABET_SIZE : Int)) ∧
    pb0.get (-1) = some 25 ∧
    Rotor.get r5 100 = some 22 ∧
    (e0.get (-1)).fst = some 1 ∧
    (e0.get (-1)).snd.rotor_asm.prm.rotation_count = [1, 0] ∧
    e0.rotor_asm.prm.rotation_count = [0, 0] := by
  refine ⟨by decide, by decide, by decide, by decide, by decide, by decide⟩

/-- C3 amended: `Disc.get` and `Reflector.get` reject exactly the inputs
outside `[0, A)`; `Plugboard.get` has no domain assertion and rejects only
inputs outside `[-A, A)` (negative inputs in `[-A, 0)` are accepted by
Python wraparound); `Rotor.get` never fails (the input is reduced mod `A`);
an engine call with input outside `[-A, A)` fails in the first plugboard
lookup before any state mutation, but inputs in `[-A, 0)` are silently
accepted, mutate state, and return a value (see the counterexample). -/
theorem c3_amended :
    (∀ (d : RotorDisc) (num : Int), d.mapping.length = ALPHABET_SIZE →
      ((d.get num).isSome ↔ (0 ≤ num ∧ num < (ALPHABET_SIZE : Int)))) ∧
    (∀ (rf : Reflector) (num : Int), rf.mapping.length = ALPHABET_SIZE →
      ((rf.get num).isSome ↔ (0 ≤ num ∧ num < (ALPHABET_SIZE : Int)))) ∧
    (∀ (pb : Plugboard) (num : Int), pb.mapping.length = ALPHABET_SIZE →
      ((pb.get num).isSome ↔
        (-(ALPHABET_SIZE : Int) ≤ num ∧ num < (ALPHABET_SIZE : Int)))) ∧
    (∀ (r : Rotor) (num : Int), r.disc.mapping.length = ALPHABET_SIZE →
      (r.get num).isSome) ∧
    (∀ (e : Enigma) (num : Int), e.plugboard.mapping.length = ALPHABET_SIZE →
      (num < -(ALPHABET_SIZE : Int) ∨ (ALPHABET_SIZE : Int) ≤ num) →
      e.get num = (none, e)) :=
  ⟨fun d num hm => discGet_isSome d num hm,
   fun rf num hm => reflectorGet_isSome rf num hm,
   fun pb num hm => pyListGet_isSome pb.mapping num hm,
   fun r num hm => rotorGet_total r num hm,
   fun e num hm h => Enigma.get_invalid e num hm h⟩

/-- C3 amended witness: concrete instances of every conjunct. -/
theorem c3_amended_witness :
    ¬ (idDisc.get 26).isSome ∧ (pb0.get (-26)).isSome ∧
    (Rotor.get r5 (-100)).isSome ∧ e0.get 27 = (none, e0) :=
  ⟨fun hs => absurd ((c3_amended.1 idDisc 26 (by decide)).mp hs).2 (by decide),
   (c3_amended.2.2.1 pb0 (-26) (by decide)).mpr (by decide),
   c3_amended.2.2.2.1 r5 (-100) (by decide),
   c3_amended.2.2.2.2 e0 27 (by decide) (Or.inr (by decide))⟩

/-- Elements of a well-formed mapping stay in the alphabet range. -/
theorem getD_lt_of_wf (m : List Nat) (hw : wfMapping m) (i : Nat)
    (hi : i < ALPHABET_SIZE) : m.getD i 0 < ALPHABET_SIZE := by
  have hi' : i < m.length := by rw [hw.1]; exact hi
  rw [List.getD_eq_getElem?_getD, List.getElem?_eq_getElem hi', Option.getD_some]
  exact hw.2 _ (List.getElem_mem hi')

/-- The recursion of `apply` splits over list concatenation. -/
theorem applyStages_append (l1 l2 : List Stage) (v : Int) :
    applyStages (l1 ++ l2) v =
      (applyStages l1 v).bind fun x => applyStages l2 x := by
  induction l1 generalizing v with
  | nil => rfl
  | cons s rest ih =>
    show (s.get v).bind _ = ((s.get v).bind _).bind _
    cases s.get v with
    | none => rfl
    | some w => exact ih w

/-- The `apply` recursion over a rotor block agrees with the spec's fold of
the stage formula `disc.get((i + ringOffset) mod A)`, and keeps the value
in range. -/
theorem applyStages_rotors (rs : List Rotor) (hwf : ∀ r ∈ rs, r.Wf)
    (v : Nat) (hv : v < ALPHABET_SIZE) :
    applyStages (rs.map Stage.rotor) (v : Int) =
      some ((rs.foldl (fun x r => rotorStageSpec r x) v : Nat) : Int) ∧
    rs.foldl (fun x r => rotorStageSpec r x) v < ALPHABET_SIZE := by
  induction rs generalizing v with
  | nil => exact ⟨rfl, hv⟩
  | cons r rest ih =>
    have hr : r.Wf := hwf r (List.mem_cons_self r rest)
    have hstep : r.get (v : Int) = some (rotorStageSpec r v) :=
      rotorGet_spec r hr.1 v
    have hlt : rotorStageSpec r v < ALPHABET_SIZE :=
      getD_lt_of_wf _ hr _ (Nat.mod_lt _ (by decide))
    have ihh := ih (fun r2 h2 => hwf r2 (List.mem_cons_of_mem _ h2))
      (rotorStageSpec r v) hlt
    refine ⟨?_, ihh.2⟩
    show (Stage.get (Stage.rotor r) (v : Int)).bind _ = _
    rw [show Stage.get (Stage.rotor r) (v : Int) = r.get (v : Int) from rfl,
      hstep]
    exact ihh.1

/-- The `apply` recursion over the source's `obj_list` computes exactly the
spec's forward/reflect/backward pipeline. -/
theorem applyStages_objList (rotors : List Rotor) (rf : Reflector)
    (hwf : ∀ r ∈ rotors, r.Wf) (hrf : wfMapping rf.mapping)
    (v : Nat) (hv : v < ALPHABET_SIZE) :
    applyStages (objList rotors rf) (v : Int) =
      some ((chainSpec rotors rf v : Nat) : Int) ∧
    chainSpec rotors rf v < ALPHABET_SIZE := by
  have hfwd := applyStages_rotors rotors hwf v hv
  have hreflLt : reflectorSpec rf (rotors.foldl (fun x r => rotorStageSpec r x) v)
      < ALPHABET_SIZE := getD_lt_of_wf _ hrf _ hfwd.2
  have hbwd := applyStages_rotors rotors.reverse
    (fun r h => hwf r (List.mem_reverse.mp h)) _ hreflLt
  have hrefl : applyStages [Stage.refl rf]
      ((rotors.foldl (fun x r => rotorStageSpec r x) v : Nat) : Int) =
      some ((reflectorSpec rf (rotors.foldl (fun x r => rotorStageSpec r x) v)
        : Nat) : Int) := by
    show (rf.get _).bind _ = _
    rw [reflectorGet_inRange rf hrf.1 _ hfwd.2]
    rfl
  refine ⟨?_, hbwd.2⟩
  unfold objList
  rw [applyStages_append, applyStages_append, hfwd.1]
  simp only [Option.some_bind]
  rw [hrefl]
  simp only [Option.some_bind]
  exact hbwd.1

/-- C5 amended: on a well-formed machine, provided the keystroke does not
flag the last rotor (whose advance raises `IndexError`, see the stepping
bug), one encode call on a valid input returns exactly the spec pipeline —
plugboard, rotors `0..N-1` (each stage `disc.get((i + ringOffset) mod A)`),
reflector, rotors `N-1..0`, plugboard — computed entirely from the
*pre-step* rotor positions, and steps the mechanism exactly once. -/
theorem c5_amended (e : Enigma) (num : Nat) (hnum : num < ALPHABET_SIZE)
    (hwf : e.Wf) (rotors2 : List Rotor) (counts2 : List Nat)
    (hstep : prmRotate e.rotor_asm.rotors e.rotor_asm.prm.rotation_count =
      some (rotors2, counts2)) :
    e.get (num : Int) =
      (some (engineSpec e num),
       ⟨⟨rotors2, e.rotor_asm.reflector, ⟨counts2⟩⟩, e.plugboard⟩) := by
  obtain ⟨⟨hrot, hrf⟩, hpb⟩ := hwf
  have hp1 := plugboardGet_inRange e.plugboard hpb.1 num hnum
  have hp1lt : plugboardSpec e.plugboard num < ALPHABET_SIZE :=
    getD_lt_of_wf _ hpb _ hnum
  have hchain := applyStages_objList e.rotor_asm.rotors e.rotor_asm.reflector
    hrot hrf _ hp1lt
  have hp2 := plugboardGet_inRange e.plugboard hpb.1
    (chainSpec e.rotor_asm.rotors e.rotor_asm.reflector
      (plugboardSpec e.plugboard num)) hchain.2
  unfold Enigma.get RotorAssembly.get engineSpec
  rw [hp1]
  simp only [hchain.1, hstep, hp2]

/-- C5 counterexample: on the well-formed machine `eCrash` and the valid
input 2 the claim as stated fails — the keystroke flags the last rotor, the
stepping raises between the rotor-chain pass and the final plugboard
application, and the call returns no value at all instead of the pipeline
value. -/
theorem c5_counterexample :
    Enigma.Wf eCrash ∧ (eCrash.get 2).fst = none ∧
    (none : Option Nat) ≠ some (engineSpec eCrash 2) := by
  refine ⟨by decide, by decide, by decide⟩

/-- C5 amended witness: on `e0`, input 2 runs the full pipeline and steps
rotor 0 exactly once. -/
theorem c5_amended_witness :
    e0.get 2 =
      (some (engineSpec e0 2),
       ⟨⟨[r5.rotate, r5, r5], refl1, ⟨[1, 0]⟩⟩, pb0⟩) :=
  c5_amended e0 2 (by decide) (by decide) [r5.rotate, r5, r5] [1, 0] (by decide)

/-- Loading the section a rotor saved restores that rotor bit-for-bit. -/
theorem Rotor.loadCfg_saveCfg (r r2 : Rotor) :
    r2.loadCfg r.saveCfg = r := rfl

/-- Loading the saved sections of a same-length rotor list restores it. -/
theorem loadRotors_save (rs rs2 : List Rotor) (h : rs2.length = rs.length) :
    loadRotors rs2 (rs.map Rotor.saveCfg) = some rs := by
  induction rs generalizing rs2 with
  | nil =>
    cases rs2 with
    | nil => rfl
    | cons a l => simp at h
  | cons r rest ih =>
    cases rs2 with
    | nil => simp at h
    | cons a l =>
      show (loadRotors l (rest.map Rotor.saveCfg)).map _ = _
      rw [ih l (by simpa using h)]
      rfl

/-- C8: the save/load contract.  `save` writes the reflector section, one
section per rotor (Ringstellung, notch, disc mapping) and the plugboard
section; loading a saved configuration into a machine with the same rotor
count restores the reflector and every rotor bit-for-bit while keeping the
loading machine's plugboard (and its never-persisted stepping counters);
loading a non-existent file changes nothing at all. -/
theorem c8_save_load (e e2 : Enigma)
    (h : e2.rotor_asm.rotors.length = e.rotor_asm.rotors.length) :
    e.saveCfg.reflectorSection = some e.rotor_asm.reflector.mapping ∧
    e.saveCfg.rotorSections = e.rotor_asm.rotors.map Rotor.saveCfg ∧
    e.saveCfg.plugboardSection = some e.plugboard.pairs ∧
    e2.loadCfg (some e.saveCfg) =
      some ⟨⟨e.rotor_asm.rotors, e.rotor_asm.reflector, e2.rotor_asm.prm⟩,
        e2.plugboard⟩ ∧
    e2.loadCfg none = some e2 := by
  refine ⟨rfl, rfl, rfl, ?_, rfl⟩
  show (e2.rotor_asm.loadCfg e.saveCfg).map _ = _
  unfold RotorAssembly.loadCfg Enigma.saveCfg
  rw [loadRotors_save e.rotor_asm.rotors e2.rotor_asm.rotors h]
  rfl

/-- C8 witness: loading `e0`'s saved configuration into `eCrash` restores
`e0`'s reflector and rotors but keeps `eCrash`'s plugboard. -/
theorem c8_save_load_witness :
    e0.saveCfg.reflectorSection = some e0.rotor_asm.reflector.mapping ∧
    e0.saveCfg.rotorSections = e0.rotor_asm.rotors.map Rotor.saveCfg ∧
    e0.saveCfg.plugboardSection = some e0.plugboard.pairs ∧
    eCrash.loadCfg (some e0.saveCfg) =
      some ⟨⟨e0.rotor_asm.rotors, e0.rotor_asm.reflector, eCrash.rotor_asm.prm⟩,
        eCrash.plugboard⟩ ∧
    eCrash.loadCfg none = some eCrash :=
  c8_save_load e0 eCrash (by decide)

/-- The generation loop produces exactly `k` pairs. -/
theorem GenPairs.length_eq {pool : List Nat} {k : Nat} {ps : List (Nat × Nat)}
    (h : GenPairs pool k ps) : ps.length = k := by
  induction h with
  | nil _ => rfl
  | cons pool pool2 a b k ps hperm hgen ih => simpa using ih

/-- Generated letters are pairwise distinct and come from the pool. -/
theorem GenPairs.nodup_letters {pool : List Nat} {k : Nat}
    {ps : List (Nat × Nat)} (h : GenPairs pool k ps) :
    pool.Nodup → (pairLetters ps).Nodup ∧ ∀ x ∈ pairLetters ps, x ∈ pool := by
  induction h with
  | nil _ =>
    intro _
    exact ⟨List.nodup_nil, fun x hx => absurd hx (List.not_mem_nil x)⟩
  | cons pool pool2 a b k ps hperm hgen ih =>
    intro hnd
    have hnd2 : (a :: b :: pool2).Nodup := hperm.nodup_iff.mpr hnd
    obtain ⟨ha, hnd3⟩ := List.nodup_cons.mp hnd2
    obtain ⟨hb, hp2⟩ := List.nodup_cons.mp hnd3
    obtain ⟨hln, hlm⟩ := ih hp2
    constructor
    · show (a :: b :: pairLetters ps).Nodup
      refine List.nodup_cons.mpr ⟨?_, List.nodup_cons.mpr ⟨?_, hln⟩⟩
      · intro hmem
        rcases List.mem_cons.mp hmem with he | hmem2
        · exact ha (he ▸ List.mem_cons_self b pool2)
        · exact ha (List.mem_cons_of_mem b (hlm a hmem2))
      · intro hmem
        exact hb (hlm b hmem)
    · intro x hx
      rcases List.mem_cons.mp hx with he | hx2
      · exact hperm.subset (he ▸ List.mem_cons_self a (b :: pool2))
      · rcases List.mem_cons.mp hx2 with he | hx3
        · exact hperm.subset (he ▸ List.mem_cons_of_mem a (List.mem_cons_self b pool2))
        · exact hperm.subset (List.mem_cons_of_mem a (List.mem_cons_of_mem b (hlm x hx3)))

/-- Characterisation of a successful `__connect`. -/
theorem connect_eq_some {m : List Nat} {p : Nat × Nat} {m2 : List Nat}
    (h : connect m p = some m2) :
    p.1 ≠ p.2 ∧ p.1 < ALPHABET_SIZE ∧ p.2 < ALPHABET_SIZE ∧
    m2 = (m.set p.1 p.2).set p.2 p.1 := by
  unfold connect at h
  split_ifs at h with hc
  · obtain ⟨h1, h2, h3⟩ := hc
    exact ⟨h1, by simpa [ALPHABET_UNIVERSE] using h2,
      by simpa [ALPHABET_UNIVERSE] using h3, (Option.some_inj.mp h).symm⟩

/-- `__setup` preserves the mapping length. -/
theorem setupPairs_length : ∀ (ps : List (Nat × Nat)) (m m2 : List Nat),
    setupPairs m ps = some m2 → m2.length = m.length := by
  intro ps
  induction ps with
  | nil =>
    intro m m2 h
    rw [← Option.some_inj.mp h]
  | cons p rest ih =>
    intro m m2 h
    unfold setupPairs at h
    cases hc : connect m p with
    | none => rw [hc] at h; cases h
    | some m1 =>
      rw [hc] at h
      simp only [Option.some_bind] at h
      obtain ⟨-, -, -, hm1⟩ := connect_eq_some hc
      rw [ih m1 m2 h, hm1]
      simp [List.length_set]

/-- Indices not named by any pair are untouched by `__setup`. -/
theorem setupPairs_frame : ∀ (ps : List (Nat × Nat)) (m m2 : List Nat),
    setupPairs m ps = some m2 → ∀ i, i ∉ pairLetters ps → m2[i]? = m[i]? := by
  intro ps
  induction ps with
  | nil =>
    intro m m2 h i _
    rw [← Option.some_inj.mp h]
  | cons p rest ih =>
    intro m m2 h i hi
    unfold setupPairs at h
    cases hc : connect m p with
    | none => rw [hc] at h; cases h
    | some m1 =>
      rw [hc] at h
      simp only [Option.some_bind] at h
      obtain ⟨-, -, -, hm1⟩ := connect_eq_some hc
      have hi1 : i ≠ p.1 := fun he => hi (he ▸ List.mem_cons_self p.1 _)
      have hi2 : i ≠ p.2 :=
        fun he => hi (he ▸ List.mem_cons_of_mem p.1 (List.mem_cons_self p.2 _))
      have hitail : i ∉ pairLetters rest :=
        fun hmem => hi (List.mem_cons_of_mem p.1 (List.mem_cons_of_mem p.2 hmem))
      rw [ih m1 m2 h i hitail, hm1,
        List.getElem?_set_ne (fun he => hi2 he.symm),
        List.getElem?_set_ne (fun he => hi1 he.symm)]

/-- After `__setup` on disjoint in-range pairs, each pair is wired as a
mutual swap. -/
theorem setupPairs_maps : ∀ (ps : List (Nat × Nat)) (m m2 : List Nat),
    setupPairs m ps = some m2 → (pairLetters ps).Nodup →
    (∀ x ∈ pairLetters ps, x < m.length) →
    ∀ p ∈ ps, m2[p.1]? = some p.2 ∧ m2[p.2]? = some p.1 := by
  intro ps
  induction ps with
  | nil =>
    intro m m2 _ _ _ p hp
    cases hp
  | cons q rest ih =>
    intro m m2 h hnd hlt p hp
    unfold setupPairs at h
    cases hc : connect m q with
    | none => rw [hc] at h; cases h
    | some m1 =>
      rw [hc] at h
      simp only [Option.some_bind] at h
      obtain ⟨hne, -, -, hm1⟩ := connect_eq_some hc
      obtain ⟨hq1notin, hnd2⟩ := List.nodup_cons.mp hnd
      obtain ⟨hq2notin, hndrest⟩ := List.nodup_cons.mp hnd2
      have hq1tail : q.1 ∉ pairLetters rest :=
        fun hmem => hq1notin (List.mem_cons_of_mem q.2 hmem)
      have hq1len : q.1 < m.length := hlt _ (List.mem_cons_self q.1 _)
      have hq2len : q.2 < m.length := hlt _
        (List.mem_cons_of_mem q.1 (List.mem_cons_self q.2 _))
      rcases List.mem_cons.mp hp with rfl | hptail
      · have hf1 := setupPairs_frame rest m1 m2 h p.1 hq1tail
        have hf2 := setupPairs_frame rest m1 m2 h p.2 hq2notin
        constructor
        · rw [hf1, hm1, List.getElem?_set_ne hne.symm,
            List.getElem?_set_self hq1len]
        · rw [hf2, hm1,
            List.getElem?_set_self (by simpa [List.length_set] using hq2len)]
      · have hlen1 : m1.length = m.length := by
          rw [hm1]; simp [List.length_set]
        refine ih m1 m2 h hndrest ?_ p hptail
        intro x hx
        rw [hlen1]
        exact hlt x (List.mem_cons_of_mem q.1 (List.mem_cons_of_mem q.2 hx))

/-- Membership in the letter list names a pair. -/
theorem mem_pairLetters : ∀ (ps : List (Nat × Nat)) (x : Nat),
    x ∈ pairLetters ps ↔ ∃ p ∈ ps, x = p.1 ∨ x = p.2 := by
  intro ps x
  induction ps with
  | nil => simp [pairLetters]
  | cons q rest ih =>
    show x ∈ q.1 :: q.2 :: pairLetters rest ↔ _
    simp only [List.mem_cons, ih]
    constructor
    · rintro (rfl | rfl | ⟨p, hp, hor⟩)
      · exact ⟨q, Or.inl rfl, Or.inl rfl⟩
      · exact ⟨q, Or.inl rfl, Or.inr rfl⟩
      · exact ⟨p, Or.inr hp, hor⟩
    · rintro ⟨p, hp | hp, hor⟩
      · cases hp
        rcases hor with rfl | rfl
        · exact Or.inl rfl
        · exact Or.inr (Or.inl rfl)
      · exact Or.inr (Or.inr ⟨p, hp, hor⟩)

/-- Distinct letters imply no pair is a self-pair. -/
theorem pairLetters_nodup_ne : ∀ (ps : List (Nat × Nat)),
    (pairLetters ps).Nodup → ∀ p ∈ ps, p.1 ≠ p.2 := by
  intro ps
  induction ps with
  | nil => intro _ p hp; cases hp
  | cons q rest ih =>
    intro hnd p hp
    obtain ⟨hq1notin, hnd2⟩ := List.nodup_cons.mp hnd
    rcases List.mem_cons.mp hp with rfl | hptail
    · exact fun he => hq1notin (he ▸ List.mem_cons_self p.2 _)
    · exact ih (List.nodup_cons.mp hnd2).2 p hptail

/-- C9: every plugboard the constructor can produce is built from `k ∈
[1, 10]` pairs; no pair connects a letter to itself; no letter appears in
more than one pair; the mapping covers the alphabet, is an involution
(`get(get(i)) = i` for every `i < A`), and fixes every unpaired letter. -/
theorem c9_plugboard_involution (pb : Plugboard) (h : pb.Constructible) :
    (1 ≤ pb.pairs.length ∧ pb.pairs.length ≤ 10) ∧
    (∀ p ∈ pb.pairs, p.1 ≠ p.2) ∧
    (pairLetters pb.pairs).Nodup ∧
    pb.mapping.length = ALPHABET_SIZE ∧
    (∀ i < ALPHABET_SIZE, pb.mapping.getD (pb.mapping.getD i 0) 0 = i) ∧
    (∀ i < ALPHABET_SIZE, i ∉ pairLetters pb.pairs → pb.mapping.getD i 0 = i) := by
  obtain ⟨k, hk1, hk10, hgen, hsetup⟩ := h
  have hklen : pb.pairs.length = k := hgen.length_eq
  obtain ⟨hnd, hmem⟩ := hgen.nodup_letters (List.nodup_range _)
  have hlt : ∀ x ∈ pairLetters pb.pairs, x < ALPHABET_SIZE :=
    fun x hx => List.mem_range.mp (hmem x hx)
  have hUlen : ALPHABET_UNIVERSE.length = ALPHABET_SIZE := List.length_range _
  have hltU : ∀ x ∈ pairLetters pb.pairs, x < ALPHABET_UNIVERSE.length :=
    fun x hx => hUlen ▸ hlt x hx
  have hmaps := setupPairs_maps pb.pairs ALPHABET_UNIVERSE pb.mapping
    hsetup hnd hltU
  have hframe := setupPairs_frame pb.pairs ALPHABET_UNIVERSE pb.mapping hsetup
  have hlen : pb.mapping.length = ALPHABET_SIZE := by
    rw [setupPairs_length pb.pairs ALPHABET_UNIVERSE pb.mapping hsetup, hUlen]
  have hunpaired : ∀ i < ALPHABET_SIZE, i ∉ pairLetters pb.pairs →
      pb.mapping.getD i 0 = i := by
    intro i hi hnotin
    rw [List.getD_eq_getElem?_getD, hframe i hnotin]
    show (List.range ALPHABET_SIZE)[i]?.getD 0 = i
    rw [List.getElem?_range hi, Option.getD_some]
  refine ⟨⟨hklen ▸ hk1, hklen ▸ hk10⟩, pairLetters_nodup_ne _ hnd, hnd, hlen,
    ?_, hunpaired⟩
  intro i hi
  by_cases hin : i ∈ pairLetters pb.pairs
  · obtain ⟨p, hp, hor⟩ := (mem_pairLetters pb.pairs i).mp hin
    obtain ⟨hp1, hp2⟩ := hmaps p hp
    have hg1 : pb.mapping.getD p.1 0 = p.2 := by
      rw [List.getD_eq_getElem?_getD, hp1, Option.getD_some]
    have hg2 : pb.mapping.getD p.2 0 = p.1 := by
      rw [List.getD_eq_getElem?_getD, hp2, Option.getD_some]
    rcases hor with rfl | rfl
    · rw [hg1, hg2]
    · rw [hg2, hg1]
  · have h1 := hunpaired i hi hin
    rw [h1, h1]

/-- C9 witness: concrete instances of the theorem on `pb0`. -/
theorem c9_plugboard_involution_witness :
    (1 ≤ pb0.pairs.length ∧ pb0.pairs.length ≤ 10) ∧
    pb0.mapping.getD (pb0.mapping.getD 0 0) 0 = 0 ∧
    pb0.mapping.getD (pb0.mapping.getD 5 0) 0 = 5 ∧
    pb0.mapping.getD 5 0 = 5 :=
  ⟨(c9_plugboard_involution pb0 pb0_constructible).1,
   (c9_plugboard_involution pb0 pb0_constructible).2.2.2.2.1 0 (by decide),
   (c9_plugboard_involution pb0 pb0_constructible).2.2.2.2.1 5 (by decide),
   (c9_plugboard_involution pb0 pb0_constructible).2.2.2.2.2 5 (by decide)
     (by decide)⟩

/-- Every rotor of a constructed assembly carries the process-wide default
ring offset. -/
theorem mkRotorAssembly_ringstellung (d : Nat) (discs : Nat → List Nat)
    (notches : Nat → Nat) (rm : List Nat) (i : Nat) (hi : i < NUM_ROTORS) :
    ((mkRotorAssembly d discs notches rm).rotors.getD i default).ringstellung
      = d := by
  unfold mkRotorAssembly mkRotorNoArg
  rw [List.getD_eq_getElem?_getD, List.getElem?_map, List.getElem?_range hi]
  rfl

/-- C10: Python evaluates `Rotor.__init__`'s default `ringstellung =
randomNumber()` once, at class-definition time; modelling that draw as the
per-process value `d`, every rotor of every assembly built in the same
process ends up with the same ring offset `d` — even across assemblies
with entirely different disc shuffles, notch draws and reflectors — rather
than an independently drawn offset per rotor. -/
theorem c10_shared_default_ringstellung (d : Nat)
    (discs discs2 : Nat → List Nat) (notches notches2 : Nat → Nat)
    (rm rm2 : List Nat) (i j : Nat)
    (hi : i < NUM_ROTORS) (hj : j < NUM_ROTORS) :
    ((mkRotorAssembly d discs notches rm).rotors.getD i default).ringstellung =
      ((mkRotorAssembly d discs2 notches2 rm2).rotors.getD j
        default).ringstellung ∧
    ((mkRotorAssembly d discs notches rm).rotors.getD i default).ringstellung
      = d := by
  rw [mkRotorAssembly_ringstellung d discs notches rm i hi,
    mkRotorAssembly_ringstellung d discs2 notches2 rm2 j hj]
  exact ⟨rfl, rfl⟩

/-- C10 witness: two differently randomised assemblies of the same process
share the offset. -/
theorem c10_shared_default_ringstellung_witness :
    ((mkRotorAssembly 7 (fun _ => ALPHABET_UNIVERSE) (fun _ => 0)
        ALPHABET_UNIVERSE).rotors.getD 0 default).ringstellung =
      ((mkRotorAssembly 7 (fun n => ALPHABET_UNIVERSE.rotate n) (fun n => n)
        (ALPHABET_UNIVERSE.rotate 1)).rotors.getD 2 default).ringstellung ∧
    ((mkRotorAssembly 7 (fun _ => ALPHABET_UNIVERSE) (fun _ => 0)
        ALPHABET_UNIVERSE).rotors.getD 0 default).ringstellung = 7 :=
  c10_shared_default_ringstellung 7 (fun _ => ALPHABET_UNIVERSE)
    (fun n => ALPHABET_UNIVERSE.rotate n) (fun _ => 0) (fun n => n)
    ALPHABET_UNIVERSE (ALPHABET_UNIVERSE.rotate 1) 0 2 (by decide) (by decide)
